import Mathlib

/-!
Shallow embedding of the `database` package of chazari-x/yandex-praktikum-diplom
(gophermart order-ledger core) and proofs about its operations.

Modelling conventions:
- SQL `NUMERIC` columns read into Go `float64` are modelled as `ℚ`; the
  operations involved are `+`, `-`, `<`, which are exact on the values the
  program manipulates.
- Each SQL table is a `List` of rows in insertion order (`INSERT` appends,
  `UPDATE` maps over the rows, `SELECT ... WHERE` filters in row order — the
  queries in the source carry no `ORDER BY`).
- `time.Now().Format(time.RFC3339)` is passed in as an explicit `now : String`
  parameter.
- A fallible operation returns `Except DBErr α` paired with the post state.
-/

/-- The error taxonomy of the `errs` struct in the source
(`db.Err.Used`, `db.Err.Empty`, ...). -/
inductive DBErr where
  | registerConflict
  | empty
  | duplicate
  | noAuthorization
  | used
  | noMoney
  | wrongData
deriving DecidableEq, Repr

/-- A row of the `users` table: `login`, `password`, nullable unique `cookie`,
`current` and `withdrawn` NUMERIC balances (the Go `User` struct reads
`current` into `Current` and `withdrawn` into `WithDraw`). -/
structure UserRow where
  login : String
  password : String
  cookie : Option String
  current : ℚ
  withdrawn : ℚ
deriving DecidableEq, Repr

/-- A row of the `Orders` table: `number` (primary key), `login`, `status`
(VARCHAR, default `'NEW'`), nullable `accrual`, `uploaded_at`. -/
structure OrderRow where
  number : String
  login : String
  status : String
  accrual : Option ℚ
  uploadedAt : String
deriving DecidableEq, Repr

/-- A row of the `withdraw` table: `orderID` (primary key), `login`, `sum`,
`processed_at`. -/
structure WithdrawRow where
  orderID : String
  login : String
  sum : ℚ
  processedAt : String
deriving DecidableEq, Repr

/-- The Go `Order` struct (`Number`, `Login`, `Status`, `Accrual`,
`UploadedAt`): used both for the accrual-service response body and for the
values returned by `GetOrders`.  `Accrual` is a plain `float64` whose zero
value is `0`. -/
structure GoOrder where
  number : String
  login : String
  status : String
  accrual : ℚ
  uploadedAt : String
deriving DecidableEq, Repr

/-- The three tables of the store. -/
structure DBState where
  users : List UserRow
  orders : List OrderRow
  withdraw : List WithdrawRow
deriving DecidableEq, Repr

/-- Query `dbGetLogin`: `SELECT login FROM users WHERE cookie = $1`
(`cookie` is UNIQUE, so the first matching row is the matching row). -/
def dbGetLogin (users : List UserRow) (cookie : String) : Option String :=
  (users.find? (fun u => u.cookie = some cookie)).map (fun u => u.login)

/-- Query `dbGetBalance`:
`SELECT login, current, withdrawn FROM users WHERE cookie = $1`. -/
def dbGetBalance (users : List UserRow) (cookie : String) : Option UserRow :=
  users.find? (fun u => u.cookie = some cookie)

/-- Statement `dbSetBalance`:
`UPDATE users SET current = $1, withdrawn = $2 WHERE cookie = $3`. -/
def dbSetBalance (users : List UserRow) (current withdrawn : ℚ)
    (cookie : String) : List UserRow :=
  users.map (fun u =>
    if u.cookie = some cookie then
      { u with current := current, withdrawn := withdrawn }
    else u)

/-- Statement `dbAddWithDraw`:
`INSERT INTO withdraw VALUES ($1, $2, $3, $4) ON CONFLICT(orderID) DO NOTHING`.
On a primary-key conflict the insert is silently dropped. -/
def dbAddWithDraw (tbl : List WithdrawRow) (orderID login : String) (sum : ℚ)
    (processedAt : String) : List WithdrawRow :=
  if tbl.any (fun w => w.orderID = orderID) then tbl
  else tbl ++ [{ orderID := orderID, login := login, sum := sum,
                 processedAt := processedAt }]

/-- Statement `dbAddOrder`:  `INSERT INTO orders (number, login, uploaded_at)
VALUES ($1, $2, $3) ON CONFLICT(number) DO NOTHING`; `status` takes the schema
default `'NEW'` and `accrual` stays NULL.  Returns the rows-affected count
together with the new table. -/
def dbAddOrder (tbl : List OrderRow) (number login uploadedAt : String) :
    Nat × List OrderRow :=
  if tbl.any (fun r => r.number = number) then (0, tbl)
  else (1, tbl ++ [{ number := number, login := login, status := "NEW",
                     accrual := none, uploadedAt := uploadedAt }])

/-- Query `dbGetOrderLogin`: `SELECT login FROM orders WHERE number = $1`. -/
def dbGetOrderLogin (tbl : List OrderRow) (number : String) : Option String :=
  (tbl.find? (fun r => r.number = number)).map (fun r => r.login)

/-- Statement `dbUpdateOrder`:
`UPDATE orders SET status = $1, accrual = $2 WHERE number = $3`. -/
def dbUpdateOrder (tbl : List OrderRow) (status : String) (accrual : ℚ)
    (number : String) : List OrderRow :=
  tbl.map (fun r =>
    if r.number = number then { r with status := status, accrual := some accrual }
    else r)

/-- Query `dbGetOrders`: `SELECT number, status, accrual, uploaded_at FROM
orders WHERE login = $1` — note: no `ORDER BY`, rows come back in table
order. -/
def dbGetOrdersQuery (tbl : List OrderRow) (login : String) : List OrderRow :=
  tbl.filter (fun r => r.login = login)

/-- Raw `database/sql` errors as far as the embedded control flow
distinguishes them: `sql.ErrNoRows` versus anything else. -/
inductive SqlErr where
  | noRows
  | other
deriving DecidableEq, Repr

/-- A Go `error` value returned by the store methods: either one of the typed
`errs` values or a raw `database/sql` error surfaced unchanged. -/
inductive GoError where
  | db (e : DBErr)
  | sql (e : SqlErr)
deriving DecidableEq, Repr

/-- Method `AddOrder(cookie string, order int) error` (source lines 190–226):
resolve the login from the cookie (`NoAuthorization` when absent), insert the
order (`ON CONFLICT(number) DO NOTHING`); when no row was affected, read the
existing row's owner and return `Used` if it differs from the caller, else
`Duplicate`; on a fresh insert hand the number to `getOrderInfo`, which
pushes `strconv.Itoa(order)` onto the worker channel.  The queue is the
channel contents in arrival order. -/
def AddOrder (st : DBState) (queue : List String) (cookie : String)
    (order : Int) (now : String) :
    Except GoError Unit × DBState × List String :=
  match dbGetLogin st.users cookie with
  | none => (.error (.db .noAuthorization), st, queue)
  | some login =>
    match dbAddOrder st.orders (toString order) login now with
    | (affected, orders1) =>
      if affected = 0 then
        match dbGetOrderLogin st.orders (toString order) with
        | none =>
          -- Unreachable: zero rows affected means the conflicting row exists.
          -- The source would surface the raw sql.ErrNoRows from the Scan.
          (.error (.sql .noRows), st, queue)
        | some orderLogin =>
          if orderLogin ≠ login then (.error (.db .used), st, queue)
          else (.error (.db .duplicate), st, queue)
      else
        (.ok (), { st with orders := orders1 }, queue ++ [toString order])

/-- Modelled `rows.Scan` for the `dbGetOrders` row shape
(`&order.Number, &order.Status, &accrual, &order.UploadedAt`): the four
selected columns are written into the destinations and the returned scan
error is `none`, since every row of the `orders` table is well typed for
these destinations.  `Login` keeps the Go zero value `""` and
`order.Accrual` keeps the zero value `0`: the scan writes the NUMERIC column
into the separate `sql.NullFloat64`. -/
def scanOrderRow (r : OrderRow) :
    Option SqlErr × GoOrder × (Bool × ℚ) :=
  (none,
   { number := r.number, login := "", status := r.status, accrual := 0,
     uploadedAt := r.uploadedAt },
   (r.accrual.isSome, r.accrual.getD 0))

/-- One iteration of the `rows.Next()` loop of `GetOrders` (source lines
407–421): a scan error other than `sql.ErrNoRows` aborts the call; the
`accrual.Valid` copy into `order.Accrual` sits inside the scan-error branch,
so after a successful scan the row is appended with `Accrual` still `0`. -/
def getOrdersLoopBody (r : OrderRow) : Except SqlErr GoOrder :=
  match scanOrderRow r with
  | (some e, order, accrual) =>
      if e ≠ .noRows then .error e
      else .ok (if accrual.1 then { order with accrual := accrual.2 } else order)
  | (none, order, _) => .ok order

/-- The `for rows.Next()` loop of `GetOrders`: process the result set in row
order, appending each scanned order, returning early on a fatal scan
error. -/
def getOrdersLoop : List OrderRow → Except SqlErr (List GoOrder)
  | [] => .ok []
  | r :: rs =>
    match getOrdersLoopBody r with
    | .error e => .error e
    | .ok o =>
      match getOrdersLoop rs with
      | .error e => .error e
      | .ok os => .ok (o :: os)

/-- Method `GetOrders(cookie string) ([]Order, error)` (source lines
389–432): resolve the login, run `dbGetOrders` (no `ORDER BY` — rows come in
table order), scan each row, and return `Empty` when no row was
accumulated. -/
def GetOrders (st : DBState) (cookie : String) :
    Except GoError (List GoOrder) :=
  match dbGetLogin st.users cookie with
  | none => .error (.db .noAuthorization)
  | some login =>
    match getOrdersLoop (dbGetOrdersQuery st.orders login) with
    | .error e => .error (.sql e)
    | .ok orders =>
      if orders = [] then .error (.db .empty) else .ok orders

/-- Method `AddWithDraw(cookie, order string, sum float64) error`
(source lines 447–475): read the balance row by cookie (`NoAuthorization` when
absent), fail with `NoMoney` when `balance.Current < sum`, otherwise insert
the withdrawal row (conflict on `orderID` is a silent no-op) and then
unconditionally write the decremented balance. -/
def AddWithDraw (st : DBState) (cookie order : String) (sum : ℚ)
    (now : String) : Except DBErr Unit × DBState :=
  match dbGetBalance st.users cookie with
  | none => (.error .noAuthorization, st)
  | some balance =>
    if balance.current < sum then (.error .noMoney, st)
    else
      let newCurrent := balance.current - sum
      let newWithdrawn := balance.withdrawn + sum
      let st1 : DBState :=
        { st with withdraw := dbAddWithDraw st.withdraw order balance.login sum now }
      let st2 : DBState :=
        { st1 with users := dbSetBalance st1.users newCurrent newWithdrawn cookie }
      (.ok (), st2)

/-- Method `GetBalance(cookie string) (User, error)` (source lines 434–445). -/
def GetBalance (st : DBState) (cookie : String) : Except DBErr UserRow :=
  match dbGetBalance st.users cookie with
  | none => .error .noAuthorization
  | some balance => .ok balance

/-- Method `updateOrder(order Order) error` (source lines 380–387): a single
`dbUpdateOrder` exec writing `order.Status` and `order.Accrual` into the row
named `order.Number`; nothing else is touched. -/
def updateOrder (st : DBState) (o : GoOrder) : Except GoError Unit × DBState :=
  (.ok (),
   { st with orders := dbUpdateOrder st.orders o.status o.accrual o.number })

/-- An HTTP response as the worker observes it: `status` is Go's
`resp.Status` — the whole status line text, e.g. "200 OK" or
"204 No Content" — and `body` is the outcome of `json.Unmarshal` on the
bytes read (`some order` on success, `none` on a parse error).  The
`Retry-After` handling of the 429 branch only sleeps the worker and is not
part of the store/queue effect. -/
structure HTTPResp where
  status : String
  body : Option GoOrder
deriving DecidableEq, Repr

/-- The store/queue effect of one worker-loop iteration: the optional
`updateOrder` write and whether the popped number is pushed back. -/
structure WorkerEffect where
  write : Option GoOrder
  requeue : Bool
deriving DecidableEq, Repr

/-- One iteration of the `for number := range input` loop of `newWorker`
(source lines 258–373) for the popped `number`, reduced to its store/queue
effect.  `resp = none` models a transport failure (request construction,
`client.Do`, or reading the body): the number is re-enqueued.  `dbok` models
whether the `db.DB.Exec` inside `updateOrder` succeeds; a failed exec writes
nothing and leaves the number re-enqueued (in the `PROCESSING` branch the
re-enqueue has already happened before the write, in the others it happens in
the error branch).  The source compares `resp.Status` — the full status
line — against the bare literals "200", "429", "500", "204"; every other
status string falls to the logging-only default branch. -/
def newWorkerIteration (number : String) (resp : Option HTTPResp)
    (dbok : Bool) : WorkerEffect :=
  match resp with
  | none => { write := none, requeue := true }
  | some resp =>
    if resp.status = "200" then
      match resp.body with
      | none => { write := none, requeue := true }
      | some order =>
        if order.status = "PROCESSING" then
          { write := if dbok then some order else none, requeue := true }
        else if order.status = "INVALID" ∨ order.status = "PROCESSED" then
          if dbok then { write := some order, requeue := false }
          else { write := none, requeue := true }
        else { write := none, requeue := true }
    else if resp.status = "429" then { write := none, requeue := true }
    else if resp.status = "500" then { write := none, requeue := true }
    else if resp.status = "204" then
      if dbok then
        { write := some { number := number, login := "", status := "INVALID",
                          accrual := 0, uploadedAt := "" }, requeue := false }
      else { write := none, requeue := true }
    else { write := none, requeue := false }

/-- A status on which no further transition happens per the spec: INVALID or
PROCESSED. -/
def terminalStatus (s : String) : Prop := s = "INVALID" ∨ s = "PROCESSED"

instance (s : String) : Decidable (terminalStatus s) := by
  unfold terminalStatus; infer_instance

/-- Position of a status along NEW → PROCESSING → {INVALID | PROCESSED}. -/
def statusRank (s : String) : Nat :=
  if s = "PROCESSING" then 1 else if terminalStatus s then 2 else 0

/-- The store plus the contents of the worker channel `inputCh`: every pushed
number not yet consumed by a worker, in arrival order. -/
structure SysState where
  db : DBState
  queue : List String
deriving DecidableEq, Repr

/-- Apply a worker-iteration effect for popped number `n`, `rest` being the
queue without the consumed occurrence. -/
def applyEffect (db : DBState) (rest : List String) (n : String)
    (e : WorkerEffect) : SysState :=
  { db := match e.write with
          | some o => (updateOrder db o).2
          | none => db,
    queue := if e.requeue then rest ++ [n] else rest }

/-- A step of the submission/reconciliation system: a client calls `AddOrder`
(with any cookie, number and timestamp), or one worker consumes a pending
number and handles one accrual-service response.  `hresp` is the §6
interface contract of the accrual service: the body of a response to
`GET /api/orders/{number}` describes that order number. -/
inductive SysStep : SysState → SysState → Prop
  | addOrder (s : SysState) (cookie : String) (order : Int) (now : String) :
      SysStep s { db := (AddOrder s.db s.queue cookie order now).2.1,
                  queue := (AddOrder s.db s.queue cookie order now).2.2 }
  | worker (s : SysState) (n : String) (pre post : List String)
      (resp : Option HTTPResp) (dbok : Bool)
      (hq : s.queue = pre ++ n :: post)
      (hresp : ∀ r o, resp = some r → r.body = some o → o.number = n) :
      SysStep s (applyEffect s.db (pre ++ post) n
                   (newWorkerIteration n resp dbok))

/-- The system starts with no orders, no withdrawals and an empty channel;
the user table is arbitrary. -/
def initState (users : List UserRow) : SysState :=
  { db := { users := users, orders := [], withdraw := [] }, queue := [] }

/-- Invariant tying the queue to the order store: a number is pending at most
once, every pending number names a stored order, and no order with a terminal
status is pending. -/
def SysInv (s : SysState) : Prop :=
  (∀ n, s.queue.count n ≤ 1) ∧
  (∀ n ∈ s.queue, ∃ r ∈ s.db.orders, r.number = n) ∧
  (∀ r ∈ s.db.orders, terminalStatus r.status → r.number ∉ s.queue)

/-- Reading the balance row back through the same cookie after `dbSetBalance`
yields the old row with the two balance fields replaced. -/
theorem dbGetBalance_dbSetBalance (users : List UserRow) (cur wd : ℚ)
    (c : String) :
    dbGetBalance (dbSetBalance users cur wd c) c
      = (dbGetBalance users c).map
          (fun u => { u with current := cur, withdrawn := wd }) := by
  induction users with
  | nil => rfl
  | cons u us ih =>
    by_cases h : u.cookie = some c
    · simp [dbGetBalance, dbSetBalance, List.find?, h]
    · simpa [dbGetBalance, dbSetBalance, List.find?, h] using ih

/-- C3: with an authenticated user at balance `(A, W)`, a requested sum
`s ≤ A`, and a withdrawal id not yet in the log, `AddWithDraw` succeeds, the
balance row becomes `(A - s, W + s)`, and exactly one withdrawal record with
that id — owner's login, sum `s`, the call's timestamp — is persisted. -/
theorem addWithDraw_sufficient_funds (st : DBState) (cookie order : String)
    (sum : ℚ) (now : String) (u : UserRow)
    (hauth : dbGetBalance st.users cookie = some u)
    (hle : sum ≤ u.current)
    (hfresh : (st.withdraw.any fun w => w.orderID = order) = false) :
    (AddWithDraw st cookie order sum now).1 = .ok () ∧
    dbGetBalance (AddWithDraw st cookie order sum now).2.users cookie
      = some { u with current := u.current - sum,
                      withdrawn := u.withdrawn + sum } ∧
    (AddWithDraw st cookie order sum now).2.withdraw
      = st.withdraw ++ [{ orderID := order, login := u.login, sum := sum,
                          processedAt := now }] ∧
    ((AddWithDraw st cookie order sum now).2.withdraw.filter
        fun w => w.orderID = order)
      = [{ orderID := order, login := u.login, sum := sum,
           processedAt := now }] := by
  have hnot : ¬ u.current < sum := not_lt.mpr hle
  have hfilter : (st.withdraw.filter fun w => w.orderID = order) = [] := by
    rw [List.filter_eq_nil_iff]
    intro w hw
    have := List.any_eq_false.mp hfresh w hw
    simpa using this
  refine ⟨?_, ?_, ?_, ?_⟩
  · simp [AddWithDraw, hauth, hnot]
  · simp [AddWithDraw, hauth, hnot, dbGetBalance_dbSetBalance]
  · simp [AddWithDraw, hauth, hnot, dbAddWithDraw, hfresh]
  · simp [AddWithDraw, hauth, hnot, dbAddWithDraw, hfresh, hfilter]

/-- Witness for C3: the spec scenario — available 100, withdrawal of 60 —
succeeds, the balance becomes `{available: 40, withdrawn: 60}`, and the single
record `(w1, u, 60)` is persisted. -/
theorem addWithDraw_sufficient_funds_witness :
    (AddWithDraw
        { users := [{ login := "u", password := "p", cookie := some "c",
                      current := 100, withdrawn := 0 }],
          orders := [], withdraw := [] } "c" "w1" 60 "t1").1 = .ok () ∧
    dbGetBalance (AddWithDraw
        { users := [{ login := "u", password := "p", cookie := some "c",
                      current := 100, withdrawn := 0 }],
          orders := [], withdraw := [] } "c" "w1" 60 "t1").2.users "c"
      = some { login := "u", password := "p", cookie := some "c",
               current := 100 - 60, withdrawn := 0 + 60 } ∧
    (AddWithDraw
        { users := [{ login := "u", password := "p", cookie := some "c",
                      current := 100, withdrawn := 0 }],
          orders := [], withdraw := [] } "c" "w1" 60 "t1").2.withdraw
      = [] ++ [{ orderID := "w1", login := "u", sum := 60,
                 processedAt := "t1" }] ∧
    ((AddWithDraw
        { users := [{ login := "u", password := "p", cookie := some "c",
                      current := 100, withdrawn := 0 }],
          orders := [], withdraw := [] } "c" "w1" 60 "t1").2.withdraw.filter
        fun w => w.orderID = "w1")
      = [{ orderID := "w1", login := "u", sum := 60, processedAt := "t1" }] :=
  addWithDraw_sufficient_funds _ "c" "w1" 60 "t1"
    { login := "u", password := "p", cookie := some "c",
      current := 100, withdrawn := 0 }
    (by decide) (by norm_num) (by decide)

/-- One unfolding of a successful `AddWithDraw` run: when the cookie resolves
and the balance covers the sum, the call returns `nil` and performs the
withdrawal insert followed by the balance write. -/
theorem addWithDraw_run (st : DBState) (cookie order : String) (sum : ℚ)
    (now : String) (u : UserRow)
    (hauth : dbGetBalance st.users cookie = some u)
    (hle : sum ≤ u.current) :
    AddWithDraw st cookie order sum now =
      (.ok (),
       { users := dbSetBalance st.users (u.current - sum) (u.withdrawn + sum) cookie,
         orders := st.orders,
         withdraw := dbAddWithDraw st.withdraw order u.login sum now }) := by
  simp [AddWithDraw, hauth, not_lt.mpr hle]

/-- Inserting twice under the same `orderID` leaves exactly the table of the
first insert: the second `ON CONFLICT(orderID) DO NOTHING` is a no-op. -/
theorem dbAddWithDraw_idem (tbl : List WithdrawRow) (orderID l1 l2 : String)
    (s1 s2 : ℚ) (t1 t2 : String) :
    dbAddWithDraw (dbAddWithDraw tbl orderID l1 s1 t1) orderID l2 s2 t2
      = dbAddWithDraw tbl orderID l1 s1 t1 := by
  by_cases h : ∃ x ∈ tbl, x.orderID = orderID
  · simp [dbAddWithDraw, h]
  · simp [dbAddWithDraw, h]

/-- Counterexample for C2: an authenticated owner with balance 100 and
requested sum 30 (well within the balance): the state after calling
`AddWithDraw` twice with the same withdrawal id differs from the state after
calling it once — the second call debits the ledger again even though its
insert is a no-op. -/
theorem addWithDraw_double_call_differs :
    (AddWithDraw
        (AddWithDraw
          { users := [{ login := "u", password := "p", cookie := some "c",
                        current := 100, withdrawn := 0 }],
            orders := [], withdraw := [] } "c" "w1" 30 "t1").2
        "c" "w1" 30 "t2").2
      ≠ (AddWithDraw
          { users := [{ login := "u", password := "p", cookie := some "c",
                        current := 100, withdrawn := 0 }],
            orders := [], withdraw := [] } "c" "w1" 30 "t1").2 := by
  norm_num [AddWithDraw, dbGetBalance, dbSetBalance, dbAddWithDraw, List.find?,
    DBState.mk.injEq, UserRow.mk.injEq]

/-- C2 (amended): the duplicate `AddWithDraw` is a no-op only for the
withdrawal log — the log after the second call equals the log after the
first; the full store state is preserved only when the second call fails with
`NoMoney`, i.e. when the remaining available balance no longer covers the
sum. -/
theorem addWithDraw_idempotent_log_only (st : DBState) (cookie order : String)
    (sum : ℚ) (t1 t2 : String) (u : UserRow)
    (hauth : dbGetBalance st.users cookie = some u)
    (hle : sum ≤ u.current) :
    (AddWithDraw (AddWithDraw st cookie order sum t1).2
        cookie order sum t2).2.withdraw
      = (AddWithDraw st cookie order sum t1).2.withdraw ∧
    (u.current - sum < sum →
      AddWithDraw (AddWithDraw st cookie order sum t1).2 cookie order sum t2
        = (.error .noMoney, (AddWithDraw st cookie order sum t1).2)) := by
  rw [addWithDraw_run st cookie order sum t1 u hauth hle]
  have hauth2 : dbGetBalance
      (dbSetBalance st.users (u.current - sum) (u.withdrawn + sum) cookie)
      cookie
      = some { u with current := u.current - sum,
                      withdrawn := u.withdrawn + sum } := by
    rw [dbGetBalance_dbSetBalance, hauth]; rfl
  constructor
  · by_cases h2 : u.current - sum < sum
    · simp [AddWithDraw, hauth2, h2]
    · simp [AddWithDraw, hauth2, h2, dbAddWithDraw_idem]
  · intro h2
    simp [AddWithDraw, hauth2, h2]

/-- Witness for the amended C2: available 100, sum 60 — after the first call
the remaining 40 no longer covers 60, so the second call is `NoMoney` and the
whole state (log included) is exactly the state after one call. -/
theorem addWithDraw_idempotent_log_only_witness :
    (AddWithDraw (AddWithDraw
          { users := [{ login := "u", password := "p", cookie := some "c",
                        current := 100, withdrawn := 0 }],
            orders := [], withdraw := [] } "c" "w1" 60 "t1").2
        "c" "w1" 60 "t2").2.withdraw
      = (AddWithDraw
          { users := [{ login := "u", password := "p", cookie := some "c",
                        current := 100, withdrawn := 0 }],
            orders := [], withdraw := [] } "c" "w1" 60 "t1").2.withdraw ∧
    ((100 : ℚ) - 60 < 60 →
      AddWithDraw (AddWithDraw
          { users := [{ login := "u", password := "p", cookie := some "c",
                        current := 100, withdrawn := 0 }],
            orders := [], withdraw := [] } "c" "w1" 60 "t1").2
        "c" "w1" 60 "t2"
      = (.error .noMoney,
         (AddWithDraw
          { users := [{ login := "u", password := "p", cookie := some "c",
                        current := 100, withdrawn := 0 }],
            orders := [], withdraw := [] } "c" "w1" 60 "t1").2)) :=
  addWithDraw_idempotent_log_only _ "c" "w1" 60 "t1" "t2"
    { login := "u", password := "p", cookie := some "c",
      current := 100, withdrawn := 0 }
    (by decide) (by norm_num)

/-- Counterexample for C8: a requested sum of −50 against available 100 is
accepted — `AddWithDraw` persists a withdrawal record with sum −50 and sets
the ledger to `(150, −50)`, so the available balance increases. -/
theorem addWithDraw_negative_sum_accepted :
    AddWithDraw
      { users := [{ login := "u", password := "p", cookie := some "c",
                    current := 100, withdrawn := 0 }],
        orders := [], withdraw := [] } "c" "w2" (-50) "t1"
      = (.ok (),
         { users := [{ login := "u", password := "p", cookie := some "c",
                       current := 150, withdrawn := -50 }],
           orders := [],
           withdraw := [{ orderID := "w2", login := "u", sum := -50,
                          processedAt := "t1" }] })
      ∧ ¬ ((-50 : ℚ) > 0) := by
  constructor
  · norm_num [AddWithDraw, dbGetBalance, dbSetBalance, dbAddWithDraw,
      List.find?, Prod.ext_iff, DBState.mk.injEq, UserRow.mk.injEq]
  · norm_num

/-- C8 (amended): `AddWithDraw` performs no positivity check on the sum: for
every authenticated user with non-negative available balance, any requested
sum `s ≤ 0` passes the balance check, persists a withdrawal record with that
non-positive sum (when the id is fresh), and moves the ledger to
`(A − s, W + s)` — for `s < 0` the available balance does not decrease but
grows or stays equal. -/
theorem addWithDraw_no_positivity_check (st : DBState) (cookie order : String)
    (sum : ℚ) (now : String) (u : UserRow)
    (hauth : dbGetBalance st.users cookie = some u)
    (hpos : 0 ≤ u.current) (hsum : sum ≤ 0)
    (hfresh : (st.withdraw.any fun w => w.orderID = order) = false) :
    (AddWithDraw st cookie order sum now).1 = .ok () ∧
    (AddWithDraw st cookie order sum now).2.withdraw
      = st.withdraw ++ [{ orderID := order, login := u.login, sum := sum,
                          processedAt := now }] ∧
    dbGetBalance (AddWithDraw st cookie order sum now).2.users cookie
      = some { u with current := u.current - sum,
                      withdrawn := u.withdrawn + sum } ∧
    u.current ≤ u.current - sum := by
  have hle : sum ≤ u.current := hsum.trans hpos
  rw [addWithDraw_run st cookie order sum now u hauth hle]
  refine ⟨rfl, ?_, ?_, by linarith⟩
  · simp [dbAddWithDraw, hfresh]
  · rw [dbGetBalance_dbSetBalance, hauth]; rfl

/-- Witness for the amended C8: sum −50 against available 100 with a fresh id
is accepted, the record with sum −50 is appended, and available grows from
100 to 150. -/
theorem addWithDraw_no_positivity_check_witness :
    (AddWithDraw
        { users := [{ login := "u", password := "p", cookie := some "c",
                      current := 100, withdrawn := 0 }],
          orders := [], withdraw := [] } "c" "w2" (-50) "t1").1 = .ok () ∧
    (AddWithDraw
        { users := [{ login := "u", password := "p", cookie := some "c",
                      current := 100, withdrawn := 0 }],
          orders := [], withdraw := [] } "c" "w2" (-50) "t1").2.withdraw
      = [] ++ [{ orderID := "w2", login := "u", sum := -50,
                 processedAt := "t1" }] ∧
    dbGetBalance (AddWithDraw
        { users := [{ login := "u", password := "p", cookie := some "c",
                      current := 100, withdrawn := 0 }],
          orders := [], withdraw := [] } "c" "w2" (-50) "t1").2.users "c"
      = some { login := "u", password := "p", cookie := some "c",
               current := 100 - (-50), withdrawn := 0 + (-50) } ∧
    (100 : ℚ) ≤ 100 - (-50) :=
  addWithDraw_no_positivity_check _ "c" "w2" (-50) "t1"
    { login := "u", password := "p", cookie := some "c",
      current := 100, withdrawn := 0 }
    (by decide) (by norm_num) (by norm_num) (by decide)

/-- C4: with an authenticated user whose available balance is strictly below
the requested sum, `AddWithDraw` returns the `NoMoney` error and the whole
store state is unchanged. -/
theorem addWithDraw_insufficient_funds (st : DBState) (cookie order : String)
    (sum : ℚ) (now : String) (u : UserRow)
    (hauth : dbGetBalance st.users cookie = some u)
    (hlt : u.current < sum) :
    AddWithDraw st cookie order sum now = (.error .noMoney, st) := by
  simp [AddWithDraw, hauth, hlt]

/-- Witness for C4: the spec scenario — available 100, requested 150 —
yields `NoMoney` and leaves the store untouched. -/
theorem addWithDraw_insufficient_funds_witness :
    AddWithDraw
      { users := [{ login := "u", password := "p", cookie := some "c",
                    current := 100, withdrawn := 0 }],
        orders := [], withdraw := [] }
      "c" "w1" 150 "t1"
    = (.error .noMoney,
       { users := [{ login := "u", password := "p", cookie := some "c",
                     current := 100, withdrawn := 0 }],
         orders := [], withdraw := [] }) :=
  addWithDraw_insufficient_funds _ "c" "w1" 150 "t1"
    { login := "u", password := "p", cookie := some "c",
      current := 100, withdrawn := 0 }
    (by decide) (by norm_num)

/-- C5: classification of `AddOrder` for an authenticated caller.  When the
number is not yet stored, the order is inserted with the caller as owner and
status `NEW`, the call succeeds, and the number is enqueued; when the number
is stored, the store and the queue are untouched and the call returns `Used`
if the stored owner differs from the caller and `Duplicate` otherwise. -/
theorem addOrder_classification (st : DBState) (queue : List String)
    (cookie : String) (order : Int) (now : String) (login : String)
    (hauth : dbGetLogin st.users cookie = some login) :
    ((st.orders.find? fun r => r.number = toString order) = none →
      AddOrder st queue cookie order now
        = (.ok (),
           { st with orders := st.orders ++
               [{ number := toString order, login := login, status := "NEW",
                  accrual := none, uploadedAt := now }] },
           queue ++ [toString order])) ∧
    (∀ row, (st.orders.find? fun r => r.number = toString order) = some row →
      AddOrder st queue cookie order now
        = ((if row.login ≠ login then .error (.db .used)
            else .error (.db .duplicate)), st, queue)) := by
  constructor
  · intro hfind
    have hex : ¬ ∃ x ∈ st.orders, x.number = toString order := by
      rw [List.find?_eq_none] at hfind
      rintro ⟨x, hx, he⟩
      exact absurd (by simpa using he) (by simpa using hfind x hx)
    have haff : dbAddOrder st.orders (toString order) login now
        = (1, st.orders ++
            [{ number := toString order, login := login, status := "NEW",
               accrual := none, uploadedAt := now }]) := by
      simp [dbAddOrder, hex]
    simp [AddOrder, hauth, haff]
  · intro row hrow
    have hex : ∃ x ∈ st.orders, x.number = toString order := by
      refine ⟨row, List.mem_of_find?_eq_some hrow, ?_⟩
      have := List.find?_some hrow
      simpa using this
    have haff : dbAddOrder st.orders (toString order) login now
        = (0, st.orders) := by
      simp [dbAddOrder, hex]
    have hlogin : dbGetOrderLogin st.orders (toString order) = some row.login := by
      rw [dbGetOrderLogin, hrow, Option.map]
    by_cases hl : row.login = login
    · simp [AddOrder, hauth, haff, hlogin, hl]
    · simp [AddOrder, hauth, haff, hlogin, hl]

/-- Witness for C5: the owner of stored order 12345 submits it again and
receives `Duplicate`, with store and queue untouched. -/
theorem addOrder_classification_witness :
    AddOrder
      { users := [{ login := "u", password := "p", cookie := some "c",
                    current := 0, withdrawn := 0 }],
        orders := [{ number := "12345", login := "u", status := "NEW",
                     accrual := none, uploadedAt := "t1" }],
        withdraw := [] } [] "c" 12345 "t2"
      = ((if ("u" : String) ≠ "u" then .error (.db .used)
          else .error (.db .duplicate)),
         { users := [{ login := "u", password := "p", cookie := some "c",
                       current := 0, withdrawn := 0 }],
           orders := [{ number := "12345", login := "u", status := "NEW",
                        accrual := none, uploadedAt := "t1" }],
           withdraw := [] }, []) :=
  (addOrder_classification _ [] "c" 12345 "t2" "u" (by rfl)).2
    { number := "12345", login := "u", status := "NEW",
      accrual := none, uploadedAt := "t1" } (by rfl)

/-- The scan loop of `GetOrders` never fails on well-typed rows, and returns
each row projected onto `(number, status, uploaded_at)` with `Login` and
`Accrual` left at their Go zero values. -/
theorem getOrdersLoop_eq (rows : List OrderRow) :
    getOrdersLoop rows
      = .ok (rows.map fun r =>
          ({ number := r.number, login := "", status := r.status, accrual := 0,
             uploadedAt := r.uploadedAt } : GoOrder)) := by
  induction rows with
  | nil => rfl
  | cons r rs ih =>
    simp [getOrdersLoop, ih, getOrdersLoopBody, scanOrderRow]

/-- C10: every order value returned by `GetOrders` carries `Accrual = 0`,
whatever accrual amount the store holds for it: the only statement copying
the scanned accrual into the result sits inside the scan-error branch, which
a successful scan skips. -/
theorem getOrders_accrual_always_zero (st : DBState) (cookie : String)
    (l : List GoOrder) (h : GetOrders st cookie = .ok l) :
    ∀ o ∈ l, o.accrual = 0 := by
  cases hlog : dbGetLogin st.users cookie with
  | none =>
    simp only [GetOrders, hlog] at h
    exact absurd h (by simp)
  | some login =>
    simp only [GetOrders, hlog, getOrdersLoop_eq] at h
    by_cases hnil :
        ((dbGetOrdersQuery st.orders login).map fun r =>
          ({ number := r.number, login := "", status := r.status, accrual := 0,
             uploadedAt := r.uploadedAt } : GoOrder)) = []
    · rw [if_pos hnil] at h
      exact absurd h (by simp)
    · rw [if_neg hnil] at h
      have hl := Except.ok.inj h
      subst hl
      intro o ho
      obtain ⟨r, _, rfl⟩ := List.mem_map.mp ho
      rfl

/-- Witness for C10: an order stored as `PROCESSED` with accrual 500 comes
back from `GetOrders` with accrual 0 — the hypothesis is discharged by
evaluating `GetOrders` on that store. -/
theorem getOrders_accrual_always_zero_witness :
    ({ number := "12345", login := "", status := "PROCESSED",
       accrual := 0, uploadedAt := "t1" } : GoOrder).accrual = 0 :=
  getOrders_accrual_always_zero
    { users := [{ login := "u", password := "p", cookie := some "c",
                  current := 0, withdrawn := 0 }],
      orders := [{ number := "12345", login := "u", status := "PROCESSED",
                   accrual := some 500, uploadedAt := "t1" }],
      withdraw := [] } "c"
    [{ number := "12345", login := "", status := "PROCESSED",
       accrual := 0, uploadedAt := "t1" }] (by rfl)
    { number := "12345", login := "", status := "PROCESSED",
      accrual := 0, uploadedAt := "t1" } (List.mem_singleton_self _)

/-- Counterexample for C7: two orders of the same owner submitted on
consecutive days sit in the table in submission order; `GetOrders` returns
the older one first (RFC3339 strings compare chronologically), so the result
is not ordered most-recently-submitted first. -/
theorem getOrders_oldest_first_example :
    GetOrders
      { users := [{ login := "u", password := "p", cookie := some "c",
                    current := 0, withdrawn := 0 }],
        orders := [
          { number := "1", login := "u", status := "NEW", accrual := none,
            uploadedAt := "2024-01-01T00:00:00Z" },
          { number := "2", login := "u", status := "NEW", accrual := none,
            uploadedAt := "2024-01-02T00:00:00Z" }],
        withdraw := [] } "c"
      = .ok [
        { number := "1", login := "", status := "NEW", accrual := 0,
          uploadedAt := "2024-01-01T00:00:00Z" },
        { number := "2", login := "", status := "NEW", accrual := 0,
          uploadedAt := "2024-01-02T00:00:00Z" }] ∧
    ("2024-01-01T00:00:00Z" : String) < "2024-01-02T00:00:00Z" := by
  constructor
  · rfl
  · rw [String.lt_iff_toList_lt]
    decide

/-- C7 (amended): `GetOrders` returns exactly the owner's orders, projected
row by row, in the order the rows sit in the table — the underlying query has
no `ORDER BY`, so no most-recently-submitted-first ordering is imposed. -/
theorem getOrders_row_order (st : DBState) (cookie login : String)
    (hauth : dbGetLogin st.users cookie = some login)
    (hne : dbGetOrdersQuery st.orders login ≠ []) :
    GetOrders st cookie
      = .ok ((dbGetOrdersQuery st.orders login).map fun r =>
          ({ number := r.number, login := "", status := r.status, accrual := 0,
             uploadedAt := r.uploadedAt } : GoOrder)) := by
  have hnil : ((dbGetOrdersQuery st.orders login).map fun r =>
      ({ number := r.number, login := "", status := r.status, accrual := 0,
         uploadedAt := r.uploadedAt } : GoOrder)) ≠ [] := by
    simpa using hne
  simp only [GetOrders, hauth, getOrdersLoop_eq, if_neg hnil]

/-- Witness for the amended C7: the two-order state above comes back in table
order. -/
theorem getOrders_row_order_witness :
    GetOrders
      { users := [{ login := "u", password := "p", cookie := some "c",
                    current := 0, withdrawn := 0 }],
        orders := [
          { number := "1", login := "u", status := "NEW", accrual := none,
            uploadedAt := "2024-01-01T00:00:00Z" },
          { number := "2", login := "u", status := "NEW", accrual := none,
            uploadedAt := "2024-01-02T00:00:00Z" }],
        withdraw := [] } "c"
      = .ok ((dbGetOrdersQuery [
          { number := "1", login := "u", status := "NEW", accrual := none,
            uploadedAt := "2024-01-01T00:00:00Z" },
          { number := "2", login := "u", status := "NEW", accrual := none,
            uploadedAt := "2024-01-02T00:00:00Z" }] "u").map fun r =>
          ({ number := r.number, login := "", status := r.status, accrual := 0,
             uploadedAt := r.uploadedAt } : GoOrder)) :=
  getOrders_row_order _ "c" "u" (by rfl) (by decide)

/-- C9: `updateOrder` writes only the `status` and `accrual` columns of the
one row named by the order's number: the users table (every ledger balance)
and the withdraw table are untouched, the orders table keeps its length, and
every row keeps its `number`, `login` and `uploaded_at` — a row with a
different number is entirely unchanged, the named row gets exactly the given
status and accrual.  This holds for any written order value, in particular
for a `PROCESSED` status with a nonzero accrual. -/
theorem updateOrder_frame (st : DBState) (o : GoOrder) :
    (updateOrder st o).2.users = st.users ∧
    (updateOrder st o).2.withdraw = st.withdraw ∧
    (updateOrder st o).2.orders.length = st.orders.length ∧
    (∀ i : Nat, (updateOrder st o).2.orders[i]?
        = (st.orders[i]?).map fun r =>
            if r.number = o.number
            then { r with status := o.status, accrual := some o.accrual }
            else r) := by
  refine ⟨rfl, rfl, by simp [updateOrder, dbUpdateOrder], ?_⟩
  intro i
  simp [updateOrder, dbUpdateOrder]

/-- C6 (failing-input evaluation): Go sets `resp.Status` to the full status
line, so an HTTP 204 response carries "204 No Content"; the worker's switch
compares it with the literal "204", misses, and falls to the default branch:
no store write and no re-enqueue — the order silently stays `NEW`.  Had the
comparison matched (a bare "204" status line), the branch would have written
status `INVALID` for the popped number without re-enqueueing, as the spec
states. -/
theorem newWorker_http204_mismatch :
    newWorkerIteration "999"
        (some { status := "204 No Content", body := none }) true
      = { write := none, requeue := false } ∧
    newWorkerIteration "999" (some { status := "204", body := none }) true
      = { write := some { number := "999", login := "", status := "INVALID",
                          accrual := 0, uploadedAt := "" },
          requeue := false } :=
  ⟨rfl, rfl⟩

/-- Any order value a worker iteration writes carries one of the statuses
"PROCESSING", "INVALID" or "PROCESSED": these are the only
`updateOrder` call sites in the loop. -/
theorem newWorkerIteration_write_status (n : String) (resp : Option HTTPResp)
    (dbok : Bool) (o : GoOrder)
    (h : (newWorkerIteration n resp dbok).write = some o) :
    o.status = "PROCESSING" ∨ o.status = "INVALID" ∨ o.status = "PROCESSED" := by
  rcases resp with _ | ⟨rs, _ | b⟩ <;>
    simp only [newWorkerIteration] at h <;>
    first
    | (simp at h)
    | (split_ifs at h <;>
        first
        | (simp_all; done)
        | (simp at h; subst h; simp_all))

/-- Under the accrual-service interface contract (the response body describes
the queried number), any order value a worker iteration writes is keyed by
the popped number. -/
theorem newWorkerIteration_write_number (n : String) (resp : Option HTTPResp)
    (dbok : Bool) (o : GoOrder)
    (hresp : ∀ r b, resp = some r → r.body = some b → b.number = n)
    (h : (newWorkerIteration n resp dbok).write = some o) :
    o.number = n := by
  rcases resp with _ | r
  · simp [newWorkerIteration] at h
  · have hb2 : ∀ b, r.body = some b → b.number = n := fun b => hresp r b rfl
    rcases r with ⟨rs, _ | b⟩ <;>
      simp only [newWorkerIteration] at h <;>
      first
      | (simp at h)
      | (split_ifs at h <;>
          first
          | (simp_all; done)
          | (simp at h; subst h; simp_all))

/-- A worker iteration that writes a terminal status does not re-enqueue the
popped number. -/
theorem newWorkerIteration_terminal_no_requeue (n : String)
    (resp : Option HTTPResp) (dbok : Bool) (o : GoOrder)
    (h : (newWorkerIteration n resp dbok).write = some o)
    (ht : terminalStatus o.status) :
    (newWorkerIteration n resp dbok).requeue = false := by
  unfold terminalStatus at ht
  rcases resp with _ | ⟨rs, _ | b⟩ <;>
    simp only [newWorkerIteration] at h ⊢ <;>
    first
    | (simp at h)
    | (split_ifs at h <;> simp_all)

/-- Effect of one `AddOrder` call on the order store and the queue: either
both are untouched (failed authorization or a number conflict), or the number
was fresh and one `NEW` row and one queue entry are appended. -/
theorem addOrder_effect (st : DBState) (queue : List String) (cookie : String)
    (order : Int) (now : String) :
    ((AddOrder st queue cookie order now).2.1 = st ∧
     (AddOrder st queue cookie order now).2.2 = queue) ∨
    ((¬ ∃ r ∈ st.orders, r.number = toString order) ∧
     ∃ login,
       (AddOrder st queue cookie order now).2.1
         = { st with orders := st.orders ++
             [{ number := toString order, login := login, status := "NEW",
                accrual := none, uploadedAt := now }] } ∧
       (AddOrder st queue cookie order now).2.2
         = queue ++ [toString order]) := by
  cases hlog : dbGetLogin st.users cookie with
  | none => left; constructor <;> simp [AddOrder, hlog]
  | some login =>
    by_cases hex : ∃ r ∈ st.orders, r.number = toString order
    · left
      have haff : dbAddOrder st.orders (toString order) login now
          = (0, st.orders) := by simp [dbAddOrder, hex]
      cases hfind : dbGetOrderLogin st.orders (toString order) with
      | none => constructor <;> simp [AddOrder, hlog, haff, hfind]
      | some l2 =>
        by_cases hl : l2 = login <;>
          constructor <;> simp [AddOrder, hlog, haff, hfind, hl]
    · right
      have haff : dbAddOrder st.orders (toString order) login now
          = (1, st.orders ++
              [{ number := toString order, login := login, status := "NEW",
                 accrual := none, uploadedAt := now }]) := by
        simp [dbAddOrder, hex]
      exact ⟨hex, login, by simp [AddOrder, hlog, haff],
             by simp [AddOrder, hlog, haff]⟩

/-- The empty initial state satisfies the queue/store invariant. -/
theorem sysInv_init (users : List UserRow) : SysInv (initState users) := by
  refine ⟨?_, ?_, ?_⟩ <;> simp [initState]

/-- Every system step preserves the queue/store invariant. -/
theorem sysInv_preserved (s s' : SysState) (hstep : SysStep s s')
    (hinv : SysInv s) : SysInv s' := by
  obtain ⟨hc, hm, ht⟩ := hinv
  cases hstep with
  | addOrder cookie order now =>
    rcases addOrder_effect s.db s.queue cookie order now with
      ⟨hdb, hqu⟩ | ⟨hfresh, login, hdb, hqu⟩
    · refine ⟨?_, ?_, ?_⟩
      · intro m
        rw [hqu]
        exact hc m
      · intro m hmem
        rw [hdb]
        exact hm m (by rw [hqu] at hmem; exact hmem)
      · intro r hr htr
        rw [hqu]
        exact ht r (by rw [hdb] at hr; exact hr) htr
    · have hn0 : toString order ∉ s.queue := by
        intro hmem
        exact hfresh (hm _ hmem)
      refine ⟨?_, ?_, ?_⟩
      · intro m
        rw [hqu, List.count_append]
        by_cases hmn : m = toString order
        · subst hmn
          simp [List.count_eq_zero_of_not_mem hn0]
        · have := hc m
          simp [List.count_cons, hmn]
          omega
      · intro m hmem
        rw [hqu] at hmem
        rw [hdb]
        rcases List.mem_append.mp hmem with hmem | hmem
        · obtain ⟨r, hr, hnum⟩ := hm m hmem
          exact ⟨r, List.mem_append_left _ hr, hnum⟩
        · refine ⟨_, List.mem_append_right _ (List.mem_singleton_self _), ?_⟩
          simpa using (List.mem_singleton.mp hmem).symm
      · intro r hr htr
        rw [hdb] at hr
        rw [hqu]
        rcases List.mem_append.mp hr with hr | hr
        · have hnot := ht r hr htr
          intro hmem
          rcases List.mem_append.mp hmem with hmem | hmem
          · exact hnot hmem
          · exact hfresh ⟨r, hr, List.mem_singleton.mp hmem⟩
        · have : r.status = "NEW" := by
            have := List.mem_singleton.mp hr
            rw [this]
          rw [this] at htr
          simp [terminalStatus] at htr
  | worker n pre post resp dbok hq hresp =>
    have hnq : n ∈ s.queue := by rw [hq]; simp
    have hrest0 : (pre ++ post).count n = 0 := by
      have := hc n
      rw [hq] at this
      simp [List.count_append, List.count_cons] at this ⊢
      omega
    have hrestle : ∀ m, (pre ++ post).count m ≤ 1 := by
      intro m
      have := hc m
      rw [hq] at this
      simp [List.count_append, List.count_cons] at this ⊢
      omega
    have hnrest : n ∉ pre ++ post := by
      intro hmem
      have := List.count_pos_iff.mpr hmem
      omega
    have hsub : ∀ m ∈ pre ++ post, m ∈ s.queue := by
      intro m hmem
      rw [hq]
      rcases List.mem_append.mp hmem with h | h
      · exact List.mem_append_left _ h
      · exact List.mem_append_right _ (List.mem_cons_of_mem _ h)
    have hqelem : ∀ x,
        x ∈ (applyEffect s.db (pre ++ post) n
              (newWorkerIteration n resp dbok)).queue → x ∈ s.queue := by
      intro x hx
      simp only [applyEffect] at hx
      by_cases hrq : (newWorkerIteration n resp dbok).requeue <;>
        simp [hrq] at hx
      · rcases hx with hx | hx | rfl
        · exact hsub x (List.mem_append.mpr (Or.inl hx))
        · exact hsub x (List.mem_append.mpr (Or.inr hx))
        · exact hnq
      · rcases hx with hx | hx
        · exact hsub x (List.mem_append.mpr (Or.inl hx))
        · exact hsub x (List.mem_append.mpr (Or.inr hx))
    have horders : (applyEffect s.db (pre ++ post) n
        (newWorkerIteration n resp dbok)).db.orders
        = (match (newWorkerIteration n resp dbok).write with
           | some o => dbUpdateOrder s.db.orders o.status o.accrual o.number
           | none => s.db.orders) := by
      simp only [applyEffect]
      rcases (newWorkerIteration n resp dbok).write with _ | o <;>
        simp [updateOrder]
    refine ⟨?_, ?_, ?_⟩
    · intro m
      simp only [applyEffect]
      by_cases hrq : (newWorkerIteration n resp dbok).requeue <;> simp [hrq]
      · by_cases hmn : m = n
        · subst hmn
          have h0 := hrest0
          simp [List.count_append] at h0
          simp [List.count_cons, List.count_nil]
          omega
        · have hle := hrestle m
          simp [List.count_append] at hle
          simp [List.count_cons, List.count_nil, hmn]
          omega
      · simpa [List.count_append] using hrestle m
    · intro m hmem
      have hms : m ∈ s.queue := hqelem m hmem
      obtain ⟨r, hr, hnum⟩ := hm m hms
      rw [horders]
      rcases hw : (newWorkerIteration n resp dbok).write with _ | o
      · exact ⟨r, hr, hnum⟩
      · refine ⟨(fun r =>
          if r.number = o.number
          then { r with status := o.status, accrual := some o.accrual }
          else r) r, List.mem_map_of_mem _ hr, ?_⟩
        by_cases hno : r.number = o.number
        · simp [hno, hnum]
          rw [← hno, hnum]
        · have hmo : ¬ m = o.number := by rw [← hnum]; exact hno
          simp [hno, hmo, hnum]
    · intro r' hr' htr'
      rw [horders] at hr'
      rcases hw : (newWorkerIteration n resp dbok).write with _ | o
      · rw [hw] at hr'
        have hnot := ht r' hr' htr'
        intro hmem
        exact hnot (hqelem _ hmem)
      · rw [hw] at hr'
        simp only [dbUpdateOrder] at hr'
        obtain ⟨r, hr, hfr⟩ := List.mem_map.mp hr'
        by_cases hno : r.number = o.number
        · rw [if_pos hno] at hfr
          have hterm_o : terminalStatus o.status := by
            rw [← hfr] at htr'
            simpa using htr'
          have hreq : (newWorkerIteration n resp dbok).requeue = false :=
            newWorkerIteration_terminal_no_requeue n resp dbok o hw hterm_o
          have hnum : o.number = n :=
            newWorkerIteration_write_number n resp dbok o hresp hw
          have hrnum : r'.number = n := by
            rw [← hfr]
            simpa using hno.trans hnum
          simp only [applyEffect, hreq]
          rw [hrnum]
          simpa using hnrest
        · rw [if_neg hno] at hfr
          rw [← hfr] at htr' ⊢
          have hnot := ht r hr htr'
          intro hmem
          exact hnot (hqelem _ hmem)

/-- Every state reachable from an initial state satisfies the queue/store
invariant. -/
theorem sysInv_reachable (users : List UserRow) (s : SysState)
    (h : Relation.ReflTransGen SysStep (initState users) s) : SysInv s := by
  induction h with
  | refl => exact sysInv_init users
  | tail hab hbc ih => exact sysInv_preserved _ _ hbc ih

/-- A non-terminal status sits at rank at most 1. -/
theorem statusRank_le_one (s : String) (h : ¬ terminalStatus s) :
    statusRank s ≤ 1 := by
  unfold statusRank
  split_ifs with h1
  · exact Nat.le_refl 1
  · exact Nat.zero_le 1

/-- Every status a worker ever writes sits at rank at least 1. -/
theorem one_le_statusRank (s : String)
    (h : s = "PROCESSING" ∨ terminalStatus s) : 1 ≤ statusRank s := by
  unfold statusRank
  split_ifs with h1 h2
  · exact Nat.le_refl 1
  · omega
  · rcases h with h | h
    · exact absurd h h1
    · exact absurd h h2

/-- C1: along any step taken from a reachable state, every stored order keeps
its number, its status never moves backwards along
NEW → PROCESSING → {INVALID | PROCESSED} (the rank never decreases, and any
changed row carries "PROCESSING" or a terminal status), and a row whose
status is already INVALID or PROCESSED is never changed again — no later
`updateOrder` touches it. -/
theorem order_status_monotone (users : List UserRow) (s s' : SysState)
    (hreach : Relation.ReflTransGen SysStep (initState users) s)
    (hstep : SysStep s s') :
    ∀ r ∈ s.db.orders, ∃ r' ∈ s'.db.orders,
      r'.number = r.number ∧
      statusRank r.status ≤ statusRank r'.status ∧
      (r' = r ∨ r'.status = "PROCESSING" ∨ terminalStatus r'.status) ∧
      (terminalStatus r.status → r' = r) := by
  obtain ⟨hc, hm, ht⟩ := sysInv_reachable users s hreach
  cases hstep with
  | addOrder cookie order now =>
    intro r hr
    rcases addOrder_effect s.db s.queue cookie order now with
      ⟨hdb, _⟩ | ⟨_, login, hdb, _⟩
    · exact ⟨r, by rw [hdb]; exact hr, rfl, Nat.le_refl _, Or.inl rfl,
        fun _ => rfl⟩
    · exact ⟨r, by rw [hdb]; exact List.mem_append_left _ hr, rfl,
        Nat.le_refl _, Or.inl rfl, fun _ => rfl⟩
  | worker n pre post resp dbok hq hresp =>
    intro r hr
    have hnq : n ∈ s.queue := by rw [hq]; simp
    rcases hw : (newWorkerIteration n resp dbok).write with _ | o
    · refine ⟨r, ?_, rfl, Nat.le_refl _, Or.inl rfl, fun _ => rfl⟩
      simp only [applyEffect, hw]
      exact hr
    · have hnum : o.number = n :=
        newWorkerIteration_write_number n resp dbok o hresp hw
      have hstat := newWorkerIteration_write_status n resp dbok o hw
      have hstat2 : o.status = "PROCESSING" ∨ terminalStatus o.status := by
        rcases hstat with h | h | h
        · exact Or.inl h
        · exact Or.inr (Or.inl h)
        · exact Or.inr (Or.inr h)
      refine ⟨(fun r =>
          if r.number = o.number
          then { r with status := o.status, accrual := some o.accrual }
          else r) r, ?_, ?_, ?_, ?_, ?_⟩
      · simp only [applyEffect, hw, updateOrder, dbUpdateOrder]
        exact List.mem_map_of_mem _ hr
      · by_cases hno : r.number = o.number <;> simp [hno]
      · by_cases hno : r.number = o.number
        · have hnt : ¬ terminalStatus r.status := by
            intro hterm
            exact (ht r hr hterm) (by rw [hno, hnum]; exact hnq)
          have h1 : statusRank r.status ≤ 1 := statusRank_le_one _ hnt
          have h2 : 1 ≤ statusRank o.status := one_le_statusRank _ hstat2
          simp only [hno, if_pos]
          exact Nat.le_trans h1 h2
        · simp [hno]
      · by_cases hno : r.number = o.number
        · right
          simpa [hno] using hstat2
        · left
          simp [hno]
      · intro hterm
        by_cases hno : r.number = o.number
        · exact absurd (by rw [hno, hnum]; exact hnq) (ht r hr hterm)
        · simp [hno]

/-- Witness for C1: from the reachable state holding the freshly submitted
order 5 (status `NEW`, pending in the queue), a worker step that receives a
`PROCESSED` accrual response moves that order only forward: the row keeps its
number, its rank does not decrease, and the `NEW` status was not terminal. -/
theorem order_status_monotone_witness :
    ∃ r' ∈ (applyEffect
        { users := [{ login := "u", password := "p", cookie := some "c",
                      current := 0, withdrawn := 0 }],
          orders := [{ number := "5", login := "u", status := "NEW",
                       accrual := none, uploadedAt := "t1" }],
          withdraw := [] }
        ([] ++ []) "5"
        (newWorkerIteration "5"
          (some { status := "200",
                  body := some { number := "5", login := "",
                                 status := "PROCESSED", accrual := 500,
                                 uploadedAt := "" } }) true)).db.orders,
      r'.number = "5" ∧
      statusRank "NEW" ≤ statusRank r'.status ∧
      (r' = { number := "5", login := "u", status := "NEW", accrual := none,
              uploadedAt := "t1" } ∨
        r'.status = "PROCESSING" ∨ terminalStatus r'.status) ∧
      (terminalStatus "NEW" →
        r' = { number := "5", login := "u", status := "NEW", accrual := none,
               uploadedAt := "t1" }) := by
  have hstep : SysStep
      { db := { users := [{ login := "u", password := "p", cookie := some "c",
                            current := 0, withdrawn := 0 }],
                orders := [{ number := "5", login := "u", status := "NEW",
                             accrual := none, uploadedAt := "t1" }],
                withdraw := [] },
        queue := ["5"] }
      (applyEffect
        { users := [{ login := "u", password := "p", cookie := some "c",
                      current := 0, withdrawn := 0 }],
          orders := [{ number := "5", login := "u", status := "NEW",
                       accrual := none, uploadedAt := "t1" }],
          withdraw := [] }
        ([] ++ []) "5"
        (newWorkerIteration "5"
          (some { status := "200",
                  body := some { number := "5", login := "",
                                 status := "PROCESSED", accrual := 500,
                                 uploadedAt := "" } }) true)) :=
    SysStep.worker _ "5" [] []
      (some { status := "200",
              body := some { number := "5", login := "",
                             status := "PROCESSED", accrual := 500,
                             uploadedAt := "" } }) true rfl
      (by rintro r o hr hb; cases hr; cases hb; rfl)
  have hreach : Relation.ReflTransGen SysStep
      (initState [{ login := "u", password := "p", cookie := some "c",
                    current := 0, withdrawn := 0 }])
      { db := { users := [{ login := "u", password := "p", cookie := some "c",
                            current := 0, withdrawn := 0 }],
                orders := [{ number := "5", login := "u", status := "NEW",
                             accrual := none, uploadedAt := "t1" }],
                withdraw := [] },
        queue := ["5"] } := by
    have h1 := SysStep.addOrder
      (initState [{ login := "u", password := "p", cookie := some "c",
                    current := 0, withdrawn := 0 }]) "c" 5 "t1"
    exact Relation.ReflTransGen.single h1
  exact order_status_monotone _ _ _ hreach hstep
    { number := "5", login := "u", status := "NEW", accrual := none,
      uploadedAt := "t1" } (List.mem_singleton_self _)
